import Mathlib

/-!
Verification of the resilient-interaction core of `valida_plazo_ripley`.

This file gives a shallow embedding of the pure logic of the repository:
the validators (`src/utils/validators.js`), the date extraction and
normalization engine (`src/services/carrito.js`), the search/cart workflow
contract (`src/services/buscarSku.js`), the login verification predicate
(`src/services/login.js` and the anti-bot variant), and the retry
orchestrator (`src/main.js`).  Browser interactions (Playwright calls) are
modelled as explicit oracles: a visibility oracle for element resolution,
and per-attempt outcome functions for workflow steps.  JavaScript regexes
are embedded as explicit backtracking matchers over `List Char` with the
same leftmost-match, greedy-quantifier semantics.
-/

set_option maxRecDepth 4096

/-! ## Character classes (JS regex classes `\d`, `\w`, `\s`) -/

/-- JS `\d`, i.e. `[0-9]`. -/
def esDigito (c : Char) : Bool := '0' ≤ c && c ≤ '9'

/-- The class `[A-Za-z0-9]` used by the SKU regex in `validators.js`. -/
def esAlfanumerico (c : Char) : Bool :=
  ('A' ≤ c && c ≤ 'Z') || ('a' ≤ c && c ≤ 'z') || ('0' ≤ c && c ≤ '9')

/-- JS `\w`, i.e. `[A-Za-z0-9_]`. -/
def esCaracterPalabra (c : Char) : Bool := esAlfanumerico c || c == '_'

/-- JS `\s` (ECMAScript WhiteSpace plus line terminators), the class used by
`trim()` and by `\s` in the regexes of `validators.js` / `carrito.js`. -/
def esJsSpace (c : Char) : Bool :=
  c == ' ' || c == '\t' || c == '\n' || c == '\r' ||
  c.toNat == 0x0B || c.toNat == 0x0C || c.toNat == 0xA0 || c.toNat == 0x1680 ||
  (0x2000 ≤ c.toNat && c.toNat ≤ 0x200A) ||
  c.toNat == 0x2028 || c.toNat == 0x2029 || c.toNat == 0x202F ||
  c.toNat == 0x205F || c.toNat == 0x3000 || c.toNat == 0xFEFF

/-! ## `sanitizarTexto` (validators.js, lines 222-231)

`texto.trim().replace(/\s+/g, ' ').replace(/[^\w\s\-:/.,áéíóúÁÉÍÓÚñÑ]/g, '')`
-/

/-- Character class kept by the final `replace` of `sanitizarTexto`:
the complement class `[^\w\s\-:/.,áéíóúÁÉÍÓÚñÑ]` is deleted. -/
def esCaracterPermitido (c : Char) : Bool :=
  esCaracterPalabra c || esJsSpace c ||
  c == '-' || c == ':' || c == '/' || c == '.' || c == ',' ||
  c == 'á' || c == 'é' || c == 'í' || c == 'ó' || c == 'ú' ||
  c == 'Á' || c == 'É' || c == 'Í' || c == 'Ó' || c == 'Ú' ||
  c == 'ñ' || c == 'Ñ'

/-- Embeds `String.prototype.trim`: drop JS whitespace at both ends. -/
def recortar (cs : List Char) : List Char :=
  ((cs.dropWhile esJsSpace).reverse.dropWhile esJsSpace).reverse

/-- Embeds `replace(/\s+/g, ' ')`: every maximal run of JS whitespace becomes a
single `' '`.  The flag records whether the previous character was
whitespace (i.e. we are inside a run that already emitted its `' '`). -/
def colapsarEspaciosAux : Bool → List Char → List Char
  | _, [] => []
  | enEspacio, c :: cs =>
    if esJsSpace c then
      if enEspacio then colapsarEspaciosAux true cs
      else ' ' :: colapsarEspaciosAux true cs
    else c :: colapsarEspaciosAux false cs

/-- Embeds `sanitizarTexto` from `validators.js`. -/
def sanitizarTexto (texto : String) : String :=
  ⟨(colapsarEspaciosAux false (recortar texto.data)).filter esCaracterPermitido⟩

/-! ## `validarSku` (validators.js, lines 13-28)

The regex `^[A-Za-z0-9]{10,}$` matches a string exactly when every
character is alphanumeric and there are at least 10 of them. -/

def validarSku (sku : String) : Bool :=
  if sku = "" then false
  else (10 ≤ sku.length) && sku.data.all esAlfanumerico

/-! ## `validarFechaChilena` (validators.js, lines 35-72) -/

/-- Embeds `parseInt(·, 10)` on a digit string. -/
def digitosANat (l : List Char) : Nat :=
  l.foldl (fun n c => n * 10 + (c.toNat - '0'.toNat)) 0

/-- The anchored regex `^(\d{1,2})-(\d{1,2})-(\d{4})$` together with the
three `parseInt` calls of `validarFechaChilena`.  Since `-` is not a digit,
`^\d{1,2}` followed by the literal `-` matches (under backtracking) exactly
when the maximal leading digit run has length 1 or 2 and is followed by
`-`; `(\d{4})$` matches exactly when the remainder is 4 digits. -/
def parseFechaChilena (fecha : String) : Option (Nat × Nat × Nat) :=
  let cs := fecha.data
  let dia := cs.takeWhile esDigito
  let r1 := cs.dropWhile esDigito
  if 1 ≤ dia.length ∧ dia.length ≤ 2 then
    match r1 with
    | '-' :: r2 =>
      let mes := r2.takeWhile esDigito
      let r3 := r2.dropWhile esDigito
      if 1 ≤ mes.length ∧ mes.length ≤ 2 then
        match r3 with
        | '-' :: r4 =>
          if r4.length = 4 ∧ r4.all esDigito then
            some (digitosANat dia, digitosANat mes, digitosANat r4)
          else none
        | _ => none
      else none
    | _ => none
  else none

/-- Gregorian leap-year rule, as used by the JS `Date` object. -/
def esBisiesto (ano : Nat) : Bool :=
  (ano % 4 == 0 && ano % 100 != 0) || ano % 400 == 0

/-- Days in the 0-based month `m0` of year `ano` (JS `Date` months). -/
def diasEnMes0 (ano m0 : Nat) : Nat :=
  match m0 with
  | 1 => if esBisiesto ano then 29 else 28
  | 3 => 30
  | 5 => 30
  | 8 => 30
  | 10 => 30
  | _ => 31

/-- Embeds `new Date(ano, m0, dia)` normalization, restricted to the argument
range reachable in `validarFechaChilena` (`0 ≤ m0 ≤ 11`, `1 ≤ dia ≤ 31`,
already checked before the `Date` is built): a day past the end of the
month carries into the following month, and at most one carry can occur
because `dia - diasEnMes0 ≤ 31 - 28 = 3` fits in every month.  Returns
`(getFullYear, getMonth, getDate)`. -/
def fechaDesdeYMD (ano m0 dia : Nat) : Nat × Nat × Nat :=
  if dia ≤ diasEnMes0 ano m0 then (ano, m0, dia)
  else if m0 = 11 then (ano + 1, 0, dia - 31)
  else (ano, m0 + 1, dia - diasEnMes0 ano m0)

/-- Embeds `validarFechaChilena` from `validators.js`. -/
def validarFechaChilena (fecha : String) : Bool :=
  if fecha = "" then false
  else
    match parseFechaChilena fecha with
    | none => false
    | some (dia, mes, ano) =>
      if dia < 1 ∨ 31 < dia ∨ mes < 1 ∨ 12 < mes ∨ ano < 2000 ∨ 2100 < ano then false
      else
        let norm := fechaDesdeYMD ano (mes - 1) dia
        norm.1 == ano && norm.2.1 == mes - 1 && norm.2.2 == dia

/-! ## Date pattern matchers (carrito.js, `PATRONES_FECHA`, lines 26-31)

Each JS regex is embedded as a matcher with the engine's semantics:
positions are tried left to right (leftmost match wins) and greedy
quantifiers backtrack.  `\d{1,2}` tries two digits first, then one. -/

/-- First `some` produced by `f` along a list (backtracking alternatives /
candidate positions are tried in order). -/
def firstSome {α β : Type} (f : α → Option β) : List α → Option β
  | [] => none
  | a :: resto =>
    match f a with
    | some b => some b
    | none => firstSome f resto

/-- Backtracking alternatives for `(\d{1,2})` at the head of `cs`, greedy
order: the two-digit alternative first.  Each alternative is the pair
(consumed digits, remaining input). -/
def opcionesDigitos12 : List Char → List (List Char × List Char)
  | [] => []
  | [a] => if esDigito a then [([a], [])] else []
  | a :: b :: resto =>
    if esDigito a then
      if esDigito b then [([a, b], resto), ([a], b :: resto)]
      else [([a], b :: resto)]
    else []

/-- Embeds `(\d{4})` at the head of `cs`: exactly four digits. -/
def coincidirAno4 : List Char → Option (List Char × List Char)
  | a :: b :: c :: d :: resto =>
    if esDigito a && esDigito b && esDigito c && esDigito d then
      some ([a, b, c, d], resto)
    else none
  | _ => none

/-- Embeds `(\d{1,2})sep(\d{1,2})sep(\d{4})` anchored at the head of `cs`
(`sep` is `-` or `/`).  Returns the three capture groups. -/
def coincidirFechaNumEn (sep : Char) (cs : List Char) :
    Option (List Char × List Char × List Char) :=
  firstSome (fun dr =>
    match dr.2 with
    | c1 :: r2 =>
      if c1 = sep then
        firstSome (fun mr =>
          match mr.2 with
          | c2 :: r4 =>
            if c2 = sep then
              match coincidirAno4 r4 with
              | some (ano, _) => some (dr.1, mr.1, ano)
              | none => none
            else none
          | [] => none) (opcionesDigitos12 r2)
      else none
    | [] => none) (opcionesDigitos12 cs)

/-- Leftmost match of the numeric date pattern: the scan used both by
`PATRONES_FECHA[0]`/`[1]` (via `String.match`) and by `formatoGuion` /
`formatoSlash` in `normalizarFechaChilena`. -/
def buscarFechaNum (sep : Char) : List Char → Option (List Char × List Char × List Char)
  | [] => none
  | c :: cs =>
    match coincidirFechaNumEn sep (c :: cs) with
    | some g => some g
    | none => buscarFechaNum sep cs

/-- Embeds `\s+` at the head of `cs`.  In every pattern of `PATRONES_FECHA` the
token after `\s+` can never match a whitespace character, so the greedy
maximal run is the only viable alternative. -/
def tomarEspacios (cs : List Char) : Option (List Char × List Char) :=
  match cs with
  | c :: _ =>
    if esJsSpace c then some (cs.takeWhile esJsSpace, cs.dropWhile esJsSpace) else none
  | [] => none

/-- Embeds `\w+` at the head of `cs`.  In `PATRONES_FECHA` the token after `\w+`
is `\s+` or `,` and can never match a word character, so the greedy
maximal run is the only viable alternative. -/
def tomarPalabra (cs : List Char) : Option (List Char × List Char) :=
  match cs with
  | c :: _ =>
    if esCaracterPalabra c then
      some (cs.takeWhile esCaracterPalabra, cs.dropWhile esCaracterPalabra)
    else none
  | [] => none

/-- The literal `de` in `PATRONES_FECHA[2]`. -/
def literalDe : List Char → Option (List Char)
  | 'd' :: 'e' :: r => some r
  | _ => none

/-- Embeds `(\d{1,2})\s+de\s+\w+\s+de\s+(\d{4})` (`PATRONES_FECHA[2]`) anchored at
the head of `cs`; returns the full matched text (`match[0]`). -/
def coincidirFechaTextualEn (cs : List Char) : Option (List Char) :=
  firstSome (fun dr =>
    match tomarEspacios dr.2 with
    | none => none
    | some (s1, r2) =>
      match literalDe r2 with
      | none => none
      | some r3 =>
        match tomarEspacios r3 with
        | none => none
        | some (s2, r4) =>
          match tomarPalabra r4 with
          | none => none
          | some (w, r5) =>
            match tomarEspacios r5 with
            | none => none
            | some (s3, r6) =>
              match literalDe r6 with
              | none => none
              | some r7 =>
                match tomarEspacios r7 with
                | none => none
                | some (s4, r8) =>
                  match coincidirAno4 r8 with
                  | none => none
                  | some (ano, _) =>
                    some (dr.1 ++ s1 ++ 'd' :: 'e' ::
                      (s2 ++ w ++ s3 ++ 'd' :: 'e' :: (s4 ++ ano))))
    (opcionesDigitos12 cs)

/-- Embeds `\w+\s+(\d{1,2}),\s+(\d{4})` (`PATRONES_FECHA[3]`) anchored at the head
of `cs`; returns the full matched text (`match[0]`). -/
def coincidirMesDiaEn (cs : List Char) : Option (List Char) :=
  match tomarPalabra cs with
  | none => none
  | some (w, r1) =>
    match tomarEspacios r1 with
    | none => none
    | some (s1, r2) =>
      firstSome (fun dr =>
        match dr.2 with
        | ',' :: r4 =>
          match tomarEspacios r4 with
          | none => none
          | some (s2, r5) =>
            match coincidirAno4 r5 with
            | none => none
            | some (ano, _) => some (w ++ s1 ++ dr.1 ++ ',' :: (s2 ++ ano))
        | _ => none) (opcionesDigitos12 r2)

/-- Leftmost match of an anchored matcher: try every start position from
the left (semantics of `String.match` for the first element of a
`g`-flagged result). -/
def primeraCoincidencia (f : List Char → Option (List Char)) : List Char → Option (List Char)
  | [] => none
  | c :: cs =>
    match f (c :: cs) with
    | some m => some m
    | none => primeraCoincidencia f cs

/-! ## `normalizarFechaChilena` and `extraerFechaDeTexto`
(carrito.js, lines 457-510) -/

/-- Embeds `padStart(2, '0')`. -/
def pad2 (l : List Char) : List Char := List.replicate (2 - l.length) '0' ++ l

/-- Embeds `normalizarFechaChilena` from `carrito.js`: the first `formatoGuion`
match, else the first `formatoSlash` match, with day/month zero-padded and
re-joined with dashes; `null` otherwise. -/
def normalizarFechaChilena (fecha : String) : Option String :=
  if fecha = "" then none
  else
    match buscarFechaNum '-' fecha.data with
    | some (dia, mes, ano) => some ⟨pad2 dia ++ '-' :: (pad2 mes ++ '-' :: ano)⟩
    | none =>
      match buscarFechaNum '/' fecha.data with
      | some (dia, mes, ano) => some ⟨pad2 dia ++ '-' :: (pad2 mes ++ '-' :: ano)⟩
      | none => none

/-- Embeds `match[0]` of `PATRONES_FECHA[0]` (`dd-mm-yyyy`). -/
def primerPatron1 (cs : List Char) : Option String :=
  (buscarFechaNum '-' cs).map (fun g => ⟨g.1 ++ '-' :: (g.2.1 ++ '-' :: g.2.2)⟩)

/-- Embeds `match[0]` of `PATRONES_FECHA[1]` (`dd/mm/yyyy`). -/
def primerPatron2 (cs : List Char) : Option String :=
  (buscarFechaNum '/' cs).map (fun g => ⟨g.1 ++ '/' :: (g.2.1 ++ '/' :: g.2.2)⟩)

/-- Embeds `match[0]` of `PATRONES_FECHA[2]` (`dd de <mes> de yyyy`). -/
def primerPatron3 (cs : List Char) : Option String :=
  (primeraCoincidencia coincidirFechaTextualEn cs).map (fun m => ⟨m⟩)

/-- Embeds `match[0]` of `PATRONES_FECHA[3]` (`<mes> dd, yyyy`). -/
def primerPatron4 (cs : List Char) : Option String :=
  (primeraCoincidencia coincidirMesDiaEn cs).map (fun m => ⟨m⟩)

/-- One iteration of the `for (const patron of PATRONES_FECHA)` loop body in
`extraerFechaDeTexto`: given `match[0]` (if any), normalize it and keep it
only if `validarFechaChilena` accepts; otherwise the loop continues. -/
def intentaPatron (m : Option String) : Option String :=
  match m with
  | none => none
  | some s =>
    match normalizarFechaChilena s with
    | none => none
    | some f => if validarFechaChilena f then some f else none

/-- The `for (const patron of PATRONES_FECHA)` loop of
`extraerFechaDeTexto`, run on the sanitized text `limpio`. -/
def extraerDeLimpio (limpio : List Char) : Option String :=
  match intentaPatron (primerPatron1 limpio) with
  | some f => some f
  | none =>
    match intentaPatron (primerPatron2 limpio) with
    | some f => some f
    | none =>
      match intentaPatron (primerPatron3 limpio) with
      | some f => some f
      | none => intentaPatron (primerPatron4 limpio)

/-- Embeds `extraerFechaDeTexto` from `carrito.js`: sanitize, then try the four
date patterns in order, returning the first normalized and
calendar-validated match. -/
def extraerFechaDeTexto (texto : String) : Option String :=
  if texto = "" then none
  else extraerDeLimpio ((sanitizarTexto texto).data)

/-! ## Result records and `validarEstructuraResultado`
(main.js / validators.js, lines 145-180) -/

/-- The result record `{sku, fecha_compromiso, estado, timestamp}`.  The
`campo in resultado` presence checks of `validarEstructuraResultado` are
vacuously true for this record type, whose fields are statically present. -/
structure Resultado where
  sku : String
  fecha_compromiso : String
  estado : String
  timestamp : String
deriving DecidableEq, Repr

/-- Embeds `validarEstructuraResultado` from `validators.js`.  The date-format
check is guarded by JS truthiness: an empty `fecha_compromiso` skips it. -/
def validarEstructuraResultado (r : Resultado) : Bool :=
  validarSku r.sku &&
  (if r.fecha_compromiso = "" then true else validarFechaChilena r.fecha_compromiso) &&
  (r.estado ≠ "" : Bool) &&
  (r.timestamp ≠ "" : Bool)

/-! ## Retry orchestrator (`ejecutarFlujoConReintentos`, main.js 115-153)

One workflow attempt (`ejecutarFlujoPrincipal(page, sku)`) either throws or
produces a record; it is modelled as `flujo : Nat → Except String Resultado`
mapping the attempt number (1-based) to its outcome, the error case
carrying `error.message`. -/

/-- Builds `` `Error: ${ultimoError?.message || 'Error desconocido'}` `` — the
fallback fires when no error was recorded or its message is falsy
(the empty string). -/
def mensajeUltimoError : Option String → String
  | none => "Error desconocido"
  | some m => if m = "" then "Error desconocido" else m

/-- The `for (let intento = 1; intento <= maxReintentos; intento++)` loop of
`ejecutarFlujoConReintentos`, structured over the number of remaining
iterations.  The second component of the result counts how many attempts
(calls of `ejecutarFlujoPrincipal`) were executed: `intento` on success,
`intento - 1` when the budget is exhausted. -/
def bucleReintentos (flujo : Nat → Except String Resultado) (sku ts : String) :
    Nat → Nat → Option String → List Resultado × Nat
  | 0, intento, ultimoError =>
    ([⟨sku, "", "Error: " ++ mensajeUltimoError ultimoError, ts⟩], intento - 1)
  | restantes + 1, intento, _ =>
    match flujo intento with
    | .ok r => ([r], intento)
    | .error e => bucleReintentos flujo sku ts restantes (intento + 1) (some e)

/-- Embeds `ejecutarFlujoConReintentos` from `main.js`: up to `maxReintentos`
attempts starting at attempt 1 with no error recorded; the synthetic
failure record uses `generarTimestamp()`, modelled by the `ts` argument. -/
def ejecutarFlujoConReintentos (flujo : Nat → Except String Resultado)
    (sku ts : String) (maxReintentos : Nat) : List Resultado × Nat :=
  bucleReintentos flujo sku ts maxReintentos 1 none

/-! ## Search / cart-add workflow (`buscarYAgregarProducto`,
buscarSku.js, lines 33-110) -/

/-- Outcome record `{sku, exito, mensaje, timestamp}` of the search
workflow. -/
structure ResultadoBusqueda where
  sku : String
  exito : Bool
  mensaje : String
  timestamp : String
deriving DecidableEq, Repr

/-- Outcomes of the three awaited inner steps of `buscarYAgregarProducto`
for a given page state: each may resolve to a boolean or reject
(DOM/timeout errors carrying `error.message`). -/
structure PasosBusqueda where
  realizarBusqueda : Except String Bool
  buscarProductoEnResultados : Except String Bool
  agregarAlCarrito : Except String Bool

/-- The `try` block of `buscarYAgregarProducto`: SKU validation, search,
product lookup (a miss is an early structured return, not a throw), and
cart add. -/
def cuerpoBuscarYAgregar (pasos : PasosBusqueda) (sku ts : String) :
    Except String ResultadoBusqueda :=
  if !validarSku sku then Except.error ("SKU inválido: " ++ sku)
  else
    match pasos.realizarBusqueda with
    | .error e => .error e
    | .ok busquedaExitosa =>
      if !busquedaExitosa then
        Except.error "No se pudo realizar la búsqueda del producto"
      else
        match pasos.buscarProductoEnResultados with
        | .error e => .error e
        | .ok productoEncontrado =>
          if !productoEncontrado then
            Except.ok ⟨sku, false, "Producto no encontrado en los resultados de búsqueda", ts⟩
          else
            match pasos.agregarAlCarrito with
            | .error e => .error e
            | .ok agregadoAlCarrito =>
              if agregadoAlCarrito then
                Except.ok ⟨sku, true, "Producto agregado con éxito", ts⟩
              else Except.error "No se pudo agregar el producto al carrito"

/-- Embeds `buscarYAgregarProducto` from `buscarSku.js`: the surrounding
`try/catch` turns any thrown error into the structured failure record
`{sku, exito: false, mensaje: 'Error: <message>'}`. -/
def buscarYAgregarProducto (pasos : PasosBusqueda) (sku ts : String) : ResultadoBusqueda :=
  match cuerpoBuscarYAgregar pasos sku ts with
  | .ok r => r
  | .error e => ⟨sku, false, "Error: " ++ e, ts⟩

/-! ## Login verification (`verificarLoginExitoso`)

Embeds the anti-bot variant of the login service (`src/unnamed/part_000`,
lines 434-485), whose verification re-runs block detection after
submission; the leaner `src/services/login.js` variant omits the block
check.  The probes are modelled by their boolean outcomes. -/

/-- JS `String.prototype.includes` on the embedded character lists. -/
def esPrefijoDe : List Char → List Char → Bool
  | [], _ => true
  | _ :: _, [] => false
  | a :: as, b :: bs => a == b && esPrefijoDe as bs

/-- Substring containment over character lists. -/
def contieneLista (sub : List Char) : List Char → Bool
  | [] => esPrefijoDe sub []
  | c :: cs => esPrefijoDe sub (c :: cs) || contieneLista sub cs

/-- Embeds `url.includes(sub)`. -/
def incluye (url sub : String) : Bool := contieneLista sub.data url.data

/-- Page state observed by `verificarLoginExitoso` after form submission:
outcome of `verificarMensajeError`, outcome of `verificarBloqueoAntiBot`,
whether some logged-in indicator selector is visible, and the current URL. -/
structure EstadoPostLogin where
  hayError : Bool
  hayBloqueo : Bool
  indicadorLogueadoVisible : Bool
  url : String

/-- The URL fallback check of `verificarLoginExitoso` (part_000 variant):
`url.includes('account') || url.includes('mi-cuenta') ||
(url.includes('ripley.cl') && !url.includes('login'))`. -/
def urlIndicaSesion (url : String) : Bool :=
  incluye url "account" || incluye url "mi-cuenta" ||
    (incluye url "ripley.cl" && !incluye url "login")

/-- Embeds `verificarLoginExitoso` (anti-bot variant): error message first, then
block detection, then logged-in indicators, then the URL fallback. -/
def verificarLoginExitoso (e : EstadoPostLogin) : Bool :=
  if e.hayError then false
  else if e.hayBloqueo then false
  else if e.indicadorLogueadoVisible then true
  else urlIndicaSesion e.url

/-! ## Resilient element resolver
(`buscarCampoEmail`, login.js 183-207; `buscarIconoCarrito`, carrito.js
137-163)

Both functions run the same loop: for each selector in order, probe
`locator(sel).first().isVisible({timeout})` inside a `try`; a `true`
outcome returns that selector's element, any error or `false` falls
through to the next candidate; `null` when the list is exhausted.  The
probe is modelled as an oracle `visible : String → Except String Bool`
(the per-candidate timeout is internal to the probe), and the element
handle is identified by the selector that resolved it. -/

def resolverPrimerVisible (visible : String → Except String Bool) :
    List String → Option String
  | [] => none
  | sel :: resto =>
    match visible sel with
    | .ok true => some sel
    | _ => resolverPrimerVisible visible resto

/-- The ranked selector list of `buscarCampoEmail` (login.js). -/
def selectoresEmail : List String :=
  ["input[type=\"email\"]",
   "input[name*=\"email\"]",
   "input[id*=\"email\"]",
   "input[placeholder*=\"email\"]",
   "input[placeholder*=\"correo\"]",
   ".email-input input",
   "[data-test=\"email-input\"]"]

/-- Embeds `buscarCampoEmail` from `login.js`. -/
def buscarCampoEmail (visible : String → Except String Bool) : Option String :=
  resolverPrimerVisible visible selectoresEmail

/-- The ranked selector list of `buscarIconoCarrito` (carrito.js). -/
def selectoresIconoCarrito : List String :=
  [".cart-icon",
   ".shopping-cart",
   ".basket-icon",
   "[data-test=\"cart-icon\"]",
   "a[href*=\"cart\"]",
   "a[href*=\"carrito\"]",
   ".header-cart",
   ".mini-cart-icon",
   "button[aria-label*=\"carrito\"]"]

/-- Embeds `buscarIconoCarrito` from `carrito.js`. -/
def buscarIconoCarrito (visible : String → Except String Bool) : Option String :=
  resolverPrimerVisible visible selectoresIconoCarrito

/-! ## Helper lemmas about the matchers -/

theorem firstSome_eq_some {α β : Type} {f : α → Option β} {l : List α} {b : β}
    (h : firstSome f l = some b) : ∃ a, a ∈ l ∧ f a = some b := by
  induction l with
  | nil => simp [firstSome] at h
  | cons a resto ih =>
    simp only [firstSome] at h
    cases hf : f a with
    | some b2 =>
      rw [hf] at h
      simp only [] at h
      exact ⟨a, List.mem_cons_self a resto, by rw [hf, h]⟩
    | none =>
      rw [hf] at h
      simp only [] at h
      obtain ⟨a2, hm, hfa⟩ := ih h
      exact ⟨a2, List.mem_cons_of_mem a hm, hfa⟩

theorem opcionesDigitos12_spec {cs : List Char} {p : List Char × List Char}
    (h : p ∈ opcionesDigitos12 cs) :
    cs = p.1 ++ p.2 ∧ p.1.all esDigito = true ∧ 1 ≤ p.1.length ∧ p.1.length ≤ 2 := by
  match cs with
  | [] => simp [opcionesDigitos12] at h
  | [a] =>
    simp only [opcionesDigitos12] at h
    split at h
    · rename_i ha
      simp at h
      subst h
      simp [ha]
    · simp at h
  | a :: b :: resto =>
    simp only [opcionesDigitos12] at h
    split at h
    · rename_i ha
      split at h
      · rename_i hb
        simp at h
        rcases h with h | h <;> subst h <;> simp [ha, hb]
      · simp at h
        subst h
        simp [ha]
    · simp at h

theorem coincidirAno4_spec {cs a r : List Char} (h : coincidirAno4 cs = some (a, r)) :
    cs = a ++ r ∧ a.all esDigito = true ∧ a.length = 4 := by
  match cs with
  | [] => simp [coincidirAno4] at h
  | [_] => simp [coincidirAno4] at h
  | [_, _] => simp [coincidirAno4] at h
  | [_, _, _] => simp [coincidirAno4] at h
  | c1 :: c2 :: c3 :: c4 :: resto =>
    simp only [coincidirAno4] at h
    split at h
    · rename_i hd
      simp at h
      obtain ⟨ha, hr⟩ := h
      subst ha
      subst hr
      simp_all
    · simp at h

theorem lista_de_cuatro {a : List Char} (h : a.length = 4) :
    ∃ a1 a2 a3 a4, a = [a1, a2, a3, a4] := by
  match a with
  | [a1, a2, a3, a4] => exact ⟨a1, a2, a3, a4, rfl⟩
  | [] => simp at h
  | [_] => simp at h
  | [_, _] => simp at h
  | [_, _, _] => simp at h
  | _ :: _ :: _ :: _ :: _ :: _ => simp at h

theorem digito_es_palabra {c : Char} (h : esDigito c = true) :
    esCaracterPalabra c = true := by
  simp [esDigito] at h
  simp [esCaracterPalabra, esAlfanumerico, h]

theorem tomarEspacios_spec {cs s r : List Char} (h : tomarEspacios cs = some (s, r)) :
    ∀ c ∈ s, esJsSpace c = true := by
  match cs with
  | [] => simp [tomarEspacios] at h
  | c0 :: cs0 =>
    simp only [tomarEspacios] at h
    split at h
    · simp at h
      obtain ⟨hs, _⟩ := h
      intro c hc
      rw [← hs] at hc
      exact List.mem_takeWhile_imp hc
    · simp at h

theorem tomarPalabra_spec {cs s r : List Char} (h : tomarPalabra cs = some (s, r)) :
    ∀ c ∈ s, esCaracterPalabra c = true := by
  match cs with
  | [] => simp [tomarPalabra] at h
  | c0 :: cs0 =>
    simp only [tomarPalabra] at h
    split at h
    · simp at h
      obtain ⟨hs, _⟩ := h
      intro c hc
      rw [← hs] at hc
      exact List.mem_takeWhile_imp hc
    · simp at h

theorem coincidirFechaNumEn_spec {sep : Char} {cs d m a : List Char}
    (h : coincidirFechaNumEn sep cs = some (d, m, a)) :
    sep ∈ cs ∧
    d.all esDigito = true ∧ 1 ≤ d.length ∧ d.length ≤ 2 ∧
    m.all esDigito = true ∧ 1 ≤ m.length ∧ m.length ≤ 2 ∧
    a.all esDigito = true ∧ a.length = 4 := by
  obtain ⟨dr, hdr, hf⟩ := firstSome_eq_some h
  obtain ⟨hcs, hdig, hl1, hl2⟩ := opcionesDigitos12_spec hdr
  cases h2 : dr.2 with
  | nil => rw [h2] at hf; simp at hf
  | cons c1 r2 =>
    rw [h2] at hf
    simp only [] at hf
    split at hf
    · rename_i hsep
      obtain ⟨mr, hmr, hf2⟩ := firstSome_eq_some hf
      obtain ⟨hcs2, hdig2, hm1, hm2⟩ := opcionesDigitos12_spec hmr
      cases h4 : mr.2 with
      | nil => rw [h4] at hf2; simp at hf2
      | cons c2 r4 =>
        rw [h4] at hf2
        simp only [] at hf2
        split at hf2
        · cases h5 : coincidirAno4 r4 with
          | none => rw [h5] at hf2; simp at hf2
          | some pr =>
            obtain ⟨ano, rr⟩ := pr
            rw [h5] at hf2
            simp only [Option.some.injEq, Prod.mk.injEq] at hf2
            obtain ⟨hd, hm, ha⟩ := hf2
            obtain ⟨_, hadig, halen⟩ := coincidirAno4_spec h5
            subst hd
            subst hm
            subst ha
            refine ⟨?_, hdig, hl1, hl2, hdig2, hm1, hm2, hadig, halen⟩
            rw [hcs, h2, hsep]
            exact List.mem_append_right _ (List.mem_cons_self _ _)
        · simp at hf2
    · simp at hf

theorem buscarFechaNum_spec {sep : Char} {cs d m a : List Char}
    (h : buscarFechaNum sep cs = some (d, m, a)) :
    sep ∈ cs ∧
    d.all esDigito = true ∧ 1 ≤ d.length ∧ d.length ≤ 2 ∧
    m.all esDigito = true ∧ 1 ≤ m.length ∧ m.length ≤ 2 ∧
    a.all esDigito = true ∧ a.length = 4 := by
  induction cs with
  | nil => simp [buscarFechaNum] at h
  | cons c cs ih =>
    simp only [buscarFechaNum] at h
    cases hc : coincidirFechaNumEn sep (c :: cs) with
    | some g =>
      rw [hc] at h
      simp only [Option.some.injEq] at h
      subst h
      exact coincidirFechaNumEn_spec hc
    | none =>
      rw [hc] at h
      simp only [] at h
      obtain ⟨hm, rest⟩ := ih h
      exact ⟨List.mem_cons_of_mem c hm, rest⟩

theorem coincidirFechaNumEn_en_pleno {sep d1 d2 m1 m2 a1 a2 a3 a4 : Char} {resto : List Char}
    (hd1 : esDigito d1 = true) (hd2 : esDigito d2 = true)
    (hm1 : esDigito m1 = true) (hm2 : esDigito m2 = true)
    (ha1 : esDigito a1 = true) (ha2 : esDigito a2 = true)
    (ha3 : esDigito a3 = true) (ha4 : esDigito a4 = true) :
    coincidirFechaNumEn sep
      (d1 :: d2 :: sep :: m1 :: m2 :: sep :: a1 :: a2 :: a3 :: a4 :: resto) =
      some ([d1, d2], [m1, m2], [a1, a2, a3, a4]) := by
  simp [coincidirFechaNumEn, opcionesDigitos12, firstSome, coincidirAno4,
        hd1, hd2, hm1, hm2, ha1, ha2, ha3, ha4]

theorem buscarFechaNum_en_pleno {sep d1 d2 m1 m2 a1 a2 a3 a4 : Char} {resto : List Char}
    (hd1 : esDigito d1 = true) (hd2 : esDigito d2 = true)
    (hm1 : esDigito m1 = true) (hm2 : esDigito m2 = true)
    (ha1 : esDigito a1 = true) (ha2 : esDigito a2 = true)
    (ha3 : esDigito a3 = true) (ha4 : esDigito a4 = true) :
    buscarFechaNum sep
      (d1 :: d2 :: sep :: m1 :: m2 :: sep :: a1 :: a2 :: a3 :: a4 :: resto) =
      some ([d1, d2], [m1, m2], [a1, a2, a3, a4]) := by
  rw [buscarFechaNum,
      coincidirFechaNumEn_en_pleno hd1 hd2 hm1 hm2 ha1 ha2 ha3 ha4]

theorem pad2_dos_digitos {d : List Char} (h1 : 1 ≤ d.length) (h2 : d.length ≤ 2)
    (hd : d.all esDigito = true) :
    ∃ p1 p2, pad2 d = [p1, p2] ∧ esDigito p1 = true ∧ esDigito p2 = true := by
  match d with
  | [] => simp at h1
  | [x] =>
    refine ⟨'0', x, by simp [pad2], by decide, ?_⟩
    simpa using hd
  | [x, y] =>
    refine ⟨x, y, by simp [pad2], ?_, ?_⟩ <;> simp_all
  | _ :: _ :: _ :: _ => simp at h2

theorem normalizar_punto_fijo {p1 p2 q1 q2 a1 a2 a3 a4 : Char}
    (hp1 : esDigito p1 = true) (hp2 : esDigito p2 = true)
    (hq1 : esDigito q1 = true) (hq2 : esDigito q2 = true)
    (ha1 : esDigito a1 = true) (ha2 : esDigito a2 = true)
    (ha3 : esDigito a3 = true) (ha4 : esDigito a4 = true) :
    normalizarFechaChilena ⟨[p1, p2, '-', q1, q2, '-', a1, a2, a3, a4]⟩ =
      some ⟨[p1, p2, '-', q1, q2, '-', a1, a2, a3, a4]⟩ := by
  have hne : (⟨[p1, p2, '-', q1, q2, '-', a1, a2, a3, a4]⟩ : String) ≠ "" := by
    intro hcontra
    have hdata := congrArg String.data hcontra
    simp at hdata
  rw [normalizarFechaChilena, if_neg hne]
  have hbus := @buscarFechaNum_en_pleno '-' p1 p2 q1 q2 a1 a2 a3 a4 []
    hp1 hp2 hq1 hq2 ha1 ha2 ha3 ha4
  rw [show (⟨[p1, p2, '-', q1, q2, '-', a1, a2, a3, a4]⟩ : String).data =
        [p1, p2, '-', q1, q2, '-', a1, a2, a3, a4] from rfl]
  rw [hbus]
  simp [pad2]

theorem normalizar_forma {x y : String} (h : normalizarFechaChilena x = some y) :
    ∃ p1 p2 q1 q2 a1 a2 a3 a4,
      y = ⟨[p1, p2, '-', q1, q2, '-', a1, a2, a3, a4]⟩ ∧
      esDigito p1 = true ∧ esDigito p2 = true ∧
      esDigito q1 = true ∧ esDigito q2 = true ∧
      esDigito a1 = true ∧ esDigito a2 = true ∧
      esDigito a3 = true ∧ esDigito a4 = true := by
  rw [normalizarFechaChilena] at h
  split at h
  · simp at h
  cases hb : buscarFechaNum '-' x.data with
  | some g =>
    obtain ⟨d, m, a⟩ := g
    rw [hb] at h
    simp only [Option.some.injEq] at h
    obtain ⟨_, hd, hdl1, hdl2, hm, hml1, hml2, ha, hal⟩ := buscarFechaNum_spec hb
    obtain ⟨p1, p2, hp, hp1, hp2⟩ := pad2_dos_digitos hdl1 hdl2 hd
    obtain ⟨q1, q2, hq, hq1, hq2⟩ := pad2_dos_digitos hml1 hml2 hm
    obtain ⟨a1, a2, a3, a4, ha4'⟩ := lista_de_cuatro hal
    subst ha4'
    simp only [List.all_cons, List.all_nil, Bool.and_true, Bool.and_eq_true] at ha
    refine ⟨p1, p2, q1, q2, a1, a2, a3, a4, ?_, hp1, hp2, hq1, hq2,
      ha.1, ha.2.1, ha.2.2.1, ha.2.2.2⟩
    rw [← h, hp, hq]
    rfl
  | none =>
    rw [hb] at h
    simp only [] at h
    cases hb2 : buscarFechaNum '/' x.data with
    | some g =>
      obtain ⟨d, m, a⟩ := g
      rw [hb2] at h
      simp only [Option.some.injEq] at h
      obtain ⟨_, hd, hdl1, hdl2, hm, hml1, hml2, ha, hal⟩ := buscarFechaNum_spec hb2
      obtain ⟨p1, p2, hp, hp1, hp2⟩ := pad2_dos_digitos hdl1 hdl2 hd
      obtain ⟨q1, q2, hq, hq1, hq2⟩ := pad2_dos_digitos hml1 hml2 hm
      obtain ⟨a1, a2, a3, a4, ha4'⟩ := lista_de_cuatro hal
      subst ha4'
      simp only [List.all_cons, List.all_nil, Bool.and_true, Bool.and_eq_true] at ha
      refine ⟨p1, p2, q1, q2, a1, a2, a3, a4, ?_, hp1, hp2, hq1, hq2,
        ha.1, ha.2.1, ha.2.2.1, ha.2.2.2⟩
      rw [← h, hp, hq]
      rfl
    | none =>
      rw [hb2] at h
      simp at h

theorem normalizar_proyector {x y : String} (h : normalizarFechaChilena x = some y) :
    normalizarFechaChilena y = some y := by
  obtain ⟨p1, p2, q1, q2, a1, a2, a3, a4, hy,
    hp1, hp2, hq1, hq2, ha1, ha2, ha3, ha4⟩ := normalizar_forma h
  subst hy
  exact normalizar_punto_fijo hp1 hp2 hq1 hq2 ha1 ha2 ha3 ha4

theorem normalizar_sin_separadores {s : String}
    (hg : ¬ '-' ∈ s.data) (hs : ¬ '/' ∈ s.data) :
    normalizarFechaChilena s = none := by
  rw [normalizarFechaChilena]
  split
  · rfl
  cases hb : buscarFechaNum '-' s.data with
  | some g =>
    obtain ⟨d, m, a⟩ := g
    exact absurd (buscarFechaNum_spec hb).1 hg
  | none =>
    cases hb2 : buscarFechaNum '/' s.data with
    | some g =>
      obtain ⟨d, m, a⟩ := g
      exact absurd (buscarFechaNum_spec hb2).1 hs
    | none => simp

/-- Every character of a `PATRONES_FECHA[2]` match (`dd de <mes> de yyyy`)
is a word character or whitespace. -/
theorem coincidirFechaTextualEn_chars {cs m : List Char}
    (h : coincidirFechaTextualEn cs = some m) :
    ∀ c ∈ m, esCaracterPalabra c = true ∨ esJsSpace c = true := by
  obtain ⟨dr, hdr, hf⟩ := firstSome_eq_some h
  obtain ⟨_, hdig, _, _⟩ := opcionesDigitos12_spec hdr
  cases h1 : tomarEspacios dr.2 with
  | none => rw [h1] at hf; simp at hf
  | some pe1 =>
    obtain ⟨s1, r2⟩ := pe1
    rw [h1] at hf
    simp only [] at hf
    cases h2 : literalDe r2 with
    | none => rw [h2] at hf; simp at hf
    | some r3 =>
      rw [h2] at hf
      simp only [] at hf
      cases h3 : tomarEspacios r3 with
      | none => rw [h3] at hf; simp at hf
      | some pe2 =>
        obtain ⟨s2, r4⟩ := pe2
        rw [h3] at hf
        simp only [] at hf
        cases h4 : tomarPalabra r4 with
        | none => rw [h4] at hf; simp at hf
        | some pw =>
          obtain ⟨w, r5⟩ := pw
          rw [h4] at hf
          simp only [] at hf
          cases h5 : tomarEspacios r5 with
          | none => rw [h5] at hf; simp at hf
          | some pe3 =>
            obtain ⟨s3, r6⟩ := pe3
            rw [h5] at hf
            simp only [] at hf
            cases h6 : literalDe r6 with
            | none => rw [h6] at hf; simp at hf
            | some r7 =>
              rw [h6] at hf
              simp only [] at hf
              cases h7 : tomarEspacios r7 with
              | none => rw [h7] at hf; simp at hf
              | some pe4 =>
                obtain ⟨s4, r8⟩ := pe4
                rw [h7] at hf
                simp only [] at hf
                cases h8 : coincidirAno4 r8 with
                | none => rw [h8] at hf; simp at hf
                | some pa =>
                  obtain ⟨ano, rr⟩ := pa
                  rw [h8] at hf
                  simp only [Option.some.injEq] at hf
                  obtain ⟨_, hadig, _⟩ := coincidirAno4_spec h8
                  subst hf
                  intro c hc
                  simp only [List.mem_append, List.mem_cons] at hc
                  casesm* _ ∨ _ <;>
                    first
                      | (subst_vars; exact Or.inl (by decide))
                      | exact Or.inl (digito_es_palabra
                          (List.all_eq_true.mp hdig c (by assumption)))
                      | exact Or.inr (tomarEspacios_spec h1 c (by assumption))
                      | exact Or.inr (tomarEspacios_spec h3 c (by assumption))
                      | exact Or.inr (tomarEspacios_spec h5 c (by assumption))
                      | exact Or.inr (tomarEspacios_spec h7 c (by assumption))
                      | exact Or.inl (tomarPalabra_spec h4 c (by assumption))
                      | exact Or.inl (digito_es_palabra
                          (List.all_eq_true.mp hadig c (by assumption)))

/-- Every character of a `PATRONES_FECHA[3]` match (`<mes> dd, yyyy`) is a
word character, whitespace, or the comma. -/
theorem coincidirMesDiaEn_chars {cs m : List Char}
    (h : coincidirMesDiaEn cs = some m) :
    ∀ c ∈ m, esCaracterPalabra c = true ∨ esJsSpace c = true ∨ c = ',' := by
  rw [coincidirMesDiaEn] at h
  cases h1 : tomarPalabra cs with
  | none => rw [h1] at h; simp at h
  | some pw =>
    obtain ⟨w, r1⟩ := pw
    rw [h1] at h
    simp only [] at h
    cases h2 : tomarEspacios r1 with
    | none => rw [h2] at h; simp at h
    | some pe1 =>
      obtain ⟨s1, r2⟩ := pe1
      rw [h2] at h
      simp only [] at h
      obtain ⟨dr, hdr, hf⟩ := firstSome_eq_some h
      obtain ⟨_, hdig, _, _⟩ := opcionesDigitos12_spec hdr
      split at hf
      · rename_i r4 heq
        cases h4 : tomarEspacios r4 with
        | none => rw [h4] at hf; simp at hf
        | some pe2 =>
          obtain ⟨s2, r5⟩ := pe2
          rw [h4] at hf
          simp only [] at hf
          cases h5 : coincidirAno4 r5 with
          | none => rw [h5] at hf; simp at hf
          | some pa =>
            obtain ⟨ano, rr⟩ := pa
            rw [h5] at hf
            simp only [Option.some.injEq] at hf
            obtain ⟨_, hadig, _⟩ := coincidirAno4_spec h5
            subst hf
            intro c hc
            simp only [List.mem_append, List.mem_cons] at hc
            casesm* _ ∨ _ <;>
              first
                | (subst_vars; exact Or.inr (Or.inr rfl))
                | exact Or.inl (tomarPalabra_spec h1 c (by assumption))
                | exact Or.inr (Or.inl (tomarEspacios_spec h2 c (by assumption)))
                | exact Or.inr (Or.inl (tomarEspacios_spec h4 c (by assumption)))
                | exact Or.inl (digito_es_palabra
                    (List.all_eq_true.mp hdig c (by assumption)))
                | exact Or.inl (digito_es_palabra
                    (List.all_eq_true.mp hadig c (by assumption)))
      · simp at hf

theorem primeraCoincidencia_spec {f : List Char → Option (List Char)} :
    ∀ {cs m : List Char}, primeraCoincidencia f cs = some m → ∃ t, f t = some m := by
  intro cs
  induction cs with
  | nil => intro m h; simp [primeraCoincidencia] at h
  | cons c cs ih =>
    intro m h
    simp only [primeraCoincidencia] at h
    cases hf : f (c :: cs) with
    | some m2 =>
      rw [hf] at h
      simp only [Option.some.injEq] at h
      exact ⟨c :: cs, by rw [hf, h]⟩
    | none =>
      rw [hf] at h
      simp only [] at h
      exact ih h

/-- A `dd de <mes> de yyyy` match is never normalized:
`normalizarFechaChilena` only recognizes dash and slash numeric dates, and
the match contains neither separator. -/
theorem patron3_no_normaliza {cs : List Char} {m : String}
    (h : primerPatron3 cs = some m) : normalizarFechaChilena m = none := by
  rw [primerPatron3] at h
  cases hp : primeraCoincidencia coincidirFechaTextualEn cs with
  | none => rw [hp] at h; simp at h
  | some l =>
    rw [hp] at h
    have h2 : (⟨l⟩ : String) = m := by simpa using h
    obtain ⟨t, ht⟩ := primeraCoincidencia_spec hp
    have hchars := coincidirFechaTextualEn_chars ht
    subst h2
    apply normalizar_sin_separadores
    · intro hmem
      rcases hchars '-' hmem with hw | hsp
      · exact absurd hw (by decide)
      · exact absurd hsp (by decide)
    · intro hmem
      rcases hchars '/' hmem with hw | hsp
      · exact absurd hw (by decide)
      · exact absurd hsp (by decide)

theorem intentaPatron_valida {o : Option String} {f : String}
    (h : intentaPatron o = some f) : validarFechaChilena f = true := by
  cases o with
  | none => simp [intentaPatron] at h
  | some s =>
    rw [intentaPatron] at h
    cases hn : normalizarFechaChilena s with
    | none => rw [hn] at h; simp at h
    | some f2 =>
      rw [hn] at h
      simp only [] at h
      split at h
      · rename_i hv
        simp only [Option.some.injEq] at h
        subst h
        exact hv
      · simp at h

theorem intentaPatron_de_none {o : Option String} (h : o = none) :
    intentaPatron o = none := by
  subst h
  rfl

theorem intentaPatron_no_normaliza {o : Option String} {s : String}
    (ho : o = some s) (hn : normalizarFechaChilena s = none) :
    intentaPatron o = none := by
  subst ho
  rw [intentaPatron, hn]

theorem extraerDeLimpio_valida {limpio : List Char} {f : String}
    (h : extraerDeLimpio limpio = some f) : validarFechaChilena f = true := by
  rw [extraerDeLimpio] at h
  cases h1 : intentaPatron (primerPatron1 limpio) with
  | some f1 =>
    rw [h1] at h
    simp only [Option.some.injEq] at h
    subst h
    exact intentaPatron_valida h1
  | none =>
    rw [h1] at h
    simp only [] at h
    cases h2 : intentaPatron (primerPatron2 limpio) with
    | some f2 =>
      rw [h2] at h
      simp only [Option.some.injEq] at h
      subst h
      exact intentaPatron_valida h2
    | none =>
      rw [h2] at h
      simp only [] at h
      cases h3 : intentaPatron (primerPatron3 limpio) with
      | some f3 =>
        rw [h3] at h
        simp only [Option.some.injEq] at h
        subst h
        exact intentaPatron_valida h3
      | none =>
        rw [h3] at h
        simp only [] at h
        exact intentaPatron_valida h

theorem extraer_valida {texto f : String} (h : extraerFechaDeTexto texto = some f) :
    validarFechaChilena f = true := by
  rw [extraerFechaDeTexto] at h
  split at h
  · simp at h
  · exact extraerDeLimpio_valida h

theorem validar_rango {s : String} (h : validarFechaChilena s = true) :
    ∃ d m a, parseFechaChilena s = some (d, m, a) ∧
      1 ≤ d ∧ d ≤ 31 ∧ 1 ≤ m ∧ m ≤ 12 ∧ 2000 ≤ a ∧ a ≤ 2100 := by
  rw [validarFechaChilena] at h
  split at h
  · simp at h
  · cases hp : parseFechaChilena s with
    | none => rw [hp] at h; simp at h
    | some t =>
      obtain ⟨d, m, a⟩ := t
      rw [hp] at h
      simp only [] at h
      split at h
      · simp at h
      · rename_i hr
        push_neg at hr
        exact ⟨d, m, a, rfl, by omega, by omega, by omega, by omega, by omega, by omega⟩

/-! ## Helper lemmas for the retry orchestrator, the search workflow and
the element resolver -/

theorem bucleReintentos_cero (flujo : Nat → Except String Resultado)
    (sku ts : String) (intento : Nat) (ultimo : Option String) :
    bucleReintentos flujo sku ts 0 intento ultimo =
      ([⟨sku, "", "Error: " ++ mensajeUltimoError ultimo, ts⟩], intento - 1) := rfl

theorem bucleReintentos_paso (flujo : Nat → Except String Resultado)
    (sku ts : String) (restantes intento : Nat) (ultimo : Option String) :
    bucleReintentos flujo sku ts (restantes + 1) intento ultimo =
      match flujo intento with
      | .ok r => ([r], intento)
      | .error e => bucleReintentos flujo sku ts restantes (intento + 1) (some e) := rfl

theorem bucle_todo_falla (flujo : Nat → Except String Resultado) (sku ts : String) :
    ∀ (n intento : Nat) (ultimo : Option String) (e : String),
      (∀ i, intento ≤ i → i < intento + (n + 1) → ∃ m, flujo i = Except.error m) →
      flujo (intento + n) = Except.error e →
      bucleReintentos flujo sku ts (n + 1) intento ultimo =
        ([⟨sku, "", "Error: " ++ mensajeUltimoError (some e), ts⟩], intento + n) := by
  intro n
  induction n with
  | zero =>
    intro intento ultimo e hall hlast
    rw [Nat.add_zero] at hlast
    rw [bucleReintentos_paso, hlast]
    simp only [bucleReintentos_cero]
    simp
  | succ n ih =>
    intro intento ultimo e hall hlast
    obtain ⟨m, hm⟩ := hall intento (Nat.le_refl _) (by omega)
    rw [bucleReintentos_paso, hm]
    have hrec := ih (intento + 1) (some m) e
      (fun i h1 h2 => hall i (by omega) (by omega))
      (by rw [show intento + 1 + n = intento + (n + 1) from by omega]; exact hlast)
    simp only []
    rw [hrec]
    rw [show intento + 1 + n = intento + (n + 1) from by omega]

theorem bucle_exito (flujo : Nat → Except String Resultado) (sku ts : String)
    (k : Nat) (r : Resultado) (hk : flujo k = Except.ok r) :
    ∀ (n intento : Nat) (ultimo : Option String),
      intento ≤ k → k < intento + n →
      (∀ i, intento ≤ i → i < k → ∃ m, flujo i = Except.error m) →
      bucleReintentos flujo sku ts n intento ultimo = ([r], k) := by
  intro n
  induction n with
  | zero =>
    intro intento ultimo h1 h2 _
    omega
  | succ n ih =>
    intro intento ultimo h1 h2 hfail
    rcases Nat.eq_or_lt_of_le h1 with heq | hlt
    · subst heq
      rw [bucleReintentos_paso, hk]
    · obtain ⟨m, hm⟩ := hfail intento (Nat.le_refl _) hlt
      rw [bucleReintentos_paso, hm]
      simp only []
      exact ih (intento + 1) (some m) hlt (by omega)
        (fun i ha hb => hfail i (by omega) hb)

theorem estado_error_no_vacio (x : String) : ("Error: " ++ x) ≠ "" := by
  intro h
  have hdata : ("Error: " ++ x).data = [] := by rw [h]
  have hexp : ("Error: " ++ x).data = "Error: ".data ++ x.data := rfl
  rw [hexp] at hdata
  have : "Error: ".data = [] := (List.append_eq_nil.mp hdata).1
  simp at this

theorem cuerpo_busqueda_sku {pasos : PasosBusqueda} {sku ts : String}
    {r : ResultadoBusqueda}
    (h : cuerpoBuscarYAgregar pasos sku ts = Except.ok r) : r.sku = sku := by
  rw [cuerpoBuscarYAgregar] at h
  repeat' split at h
  all_goals
    first
      | exact Except.noConfusion h
      | (injection h with h2; rw [← h2])

theorem resolver_precedencia {visible : String → Except String Bool} :
    ∀ (sels : List String) (i : Nat) (hi : i < sels.length),
      (∀ j, ∀ hj : j < sels.length, j < i →
         visible (sels.get ⟨j, hj⟩) ≠ Except.ok true) →
      visible (sels.get ⟨i, hi⟩) = Except.ok true →
      resolverPrimerVisible visible sels = some (sels.get ⟨i, hi⟩) := by
  intro sels
  induction sels with
  | nil => intro i hi; simp at hi
  | cons s resto ih =>
    intro i hi hprev hvis
    cases i with
    | zero =>
      simp only [List.get] at hvis
      rw [resolverPrimerVisible, hvis]
      rfl
    | succ i2 =>
      have hs : visible s ≠ Except.ok true := by
        have := hprev 0 (by simp) (Nat.succ_pos i2)
        simpa using this
      have hi2 : i2 < resto.length := by simpa using hi
      rw [resolverPrimerVisible]
      have hget : (s :: resto).get ⟨i2 + 1, hi⟩ = resto.get ⟨i2, hi2⟩ := rfl
      rw [hget] at hvis ⊢
      have hrec := ih i2 hi2
        (fun j hj hji => by
          have := hprev (j + 1) (by simpa using Nat.succ_lt_succ hj)
            (Nat.succ_lt_succ hji)
          simpa using this)
        hvis
      cases hv : visible s with
      | error e => simpa using hrec
      | ok b =>
        cases b with
        | true => exact absurd hv hs
        | false => simpa using hrec

theorem resolver_agotado {visible : String → Except String Bool} :
    ∀ sels : List String, (∀ s ∈ sels, visible s ≠ Except.ok true) →
      resolverPrimerVisible visible sels = none := by
  intro sels
  induction sels with
  | nil => intro _; rfl
  | cons s resto ih =>
    intro hall
    rw [resolverPrimerVisible]
    have hs : visible s ≠ Except.ok true := hall s (List.mem_cons_self s resto)
    have hrec := ih (fun x hx => hall x (List.mem_cons_of_mem s hx))
    cases hv : visible s with
    | error e => simpa using hrec
    | ok b =>
      cases b with
      | true => exact absurd hv hs
      | false => simpa using hrec

/-- A `<mes> dd, yyyy` match is never normalized, for the same reason. -/
theorem patron4_no_normaliza {cs : List Char} {m : String}
    (h : primerPatron4 cs = some m) : normalizarFechaChilena m = none := by
  rw [primerPatron4] at h
  cases hp : primeraCoincidencia coincidirMesDiaEn cs with
  | none => rw [hp] at h; simp at h
  | some l =>
    rw [hp] at h
    have h2 : (⟨l⟩ : String) = m := by simpa using h
    obtain ⟨t, ht⟩ := primeraCoincidencia_spec hp
    have hchars := coincidirMesDiaEn_chars ht
    subst h2
    apply normalizar_sin_separadores
    · intro hmem
      rcases hchars '-' hmem with hw | hsp | hcoma
      · exact absurd hw (by decide)
      · exact absurd hsp (by decide)
      · exact absurd hcoma (by decide)
    · intro hmem
      rcases hchars '/' hmem with hw | hsp | hcoma
      · exact absurd hw (by decide)
      · exact absurd hsp (by decide)
      · exact absurd hcoma (by decide)

/-! ## Additional extraction helper -/

theorem extraerDeLimpio_sin_numericos {limpio : List Char}
    (h1 : primerPatron1 limpio = none) (h2 : primerPatron2 limpio = none) :
    extraerDeLimpio limpio = none := by
  rw [extraerDeLimpio]
  simp only [intentaPatron_de_none h1, intentaPatron_de_none h2]
  cases h3 : primerPatron3 limpio with
  | none =>
    simp only [intentaPatron_de_none rfl]
    cases h4 : primerPatron4 limpio with
    | none => exact intentaPatron_de_none rfl
    | some m => exact intentaPatron_no_normaliza rfl (patron4_no_normaliza h4)
  | some m =>
    simp only [intentaPatron_no_normaliza rfl (patron3_no_normaliza h3)]
    cases h4 : primerPatron4 limpio with
    | none => exact intentaPatron_de_none rfl
    | some m2 => exact intentaPatron_no_normaliza rfl (patron4_no_normaliza h4)

theorem sku_con_no_alfanumerico {s : String} {c : Char} (hc : c ∈ s.data)
    (hcf : esAlfanumerico c = false) : validarSku s = false := by
  rw [validarSku]
  split
  · rfl
  · have hall : s.data.all esAlfanumerico = false :=
      List.all_eq_false.mpr ⟨c, hc, by simp [hcf]⟩
    simp [hall]

/-! ## Claim theorems -/

/-- Claim C1: the date-extraction function `extraerFechaDeTexto`, used by
all three strategies of `obtenerFechaCompromiso`, never returns a string
that fails calendar validation: any returned date passes
`validarFechaChilena` and its year lies in [2000, 2100]; moreover
`31-04-2025` is rejected, `29-02-2024` accepted and `29-02-2023` rejected
by the validator. -/
theorem extraccion_siempre_valida :
    (∀ texto f : String, extraerFechaDeTexto texto = some f →
       validarFechaChilena f = true ∧
       ∃ d m a, parseFechaChilena f = some (d, m, a) ∧ 2000 ≤ a ∧ a ≤ 2100) ∧
    validarFechaChilena "31-04-2025" = false ∧
    validarFechaChilena "29-02-2024" = true ∧
    validarFechaChilena "29-02-2023" = false := by
  refine ⟨?_, by decide, by decide, by decide⟩
  intro texto f h
  have hv := extraer_valida h
  obtain ⟨d, m, a, hp, _, _, _, _, ha1, ha2⟩ := validar_rango hv
  exact ⟨hv, d, m, a, hp, ha1, ha2⟩

theorem extraccion_siempre_valida_witness :
    extraerFechaDeTexto "Fecha de entrega: 15-08-2025" = some "15-08-2025" ∧
    validarFechaChilena "15-08-2025" = true :=
  ⟨by decide,
   (extraccion_siempre_valida.1 "Fecha de entrega: 15-08-2025" "15-08-2025"
     (by decide)).1⟩

/-- Claim C2 counterexample: on the text `"15 de agosto de 2025"` the
numeric patterns do not match, the first matching pattern is the
textual-month `PATRONES_FECHA[2]` (matching the whole text), and the
denoted date `15-08-2025` is calendar-valid — yet `extraerFechaDeTexto`
returns `none` instead of the normalized `some "15-08-2025"` promised by
the claim. -/
theorem patron_textual_cex :
    primerPatron1 ((sanitizarTexto "15 de agosto de 2025").data) = none ∧
    primerPatron2 ((sanitizarTexto "15 de agosto de 2025").data) = none ∧
    primerPatron3 ((sanitizarTexto "15 de agosto de 2025").data) =
      some "15 de agosto de 2025" ∧
    validarFechaChilena "15-08-2025" = true ∧
    extraerFechaDeTexto "15 de agosto de 2025" = none :=
  ⟨by decide, by decide, by decide, by decide, by decide⟩

/-- Claim C2 (amended): a textual-month match is never normalized —
`normalizarFechaChilena` recognizes only the numeric dash/slash forms and
returns `none` on every `PATRONES_FECHA[2]` and `PATRONES_FECHA[3]` match,
so `extraerFechaDeTexto` discards textual-month matches; in particular it
returns `none` whenever neither numeric pattern matches the sanitized
text. -/
theorem patrones_textuales_descartados :
    (∀ (texto : String) (m : String),
       primerPatron3 ((sanitizarTexto texto).data) = some m →
       normalizarFechaChilena m = none) ∧
    (∀ (texto : String) (m : String),
       primerPatron4 ((sanitizarTexto texto).data) = some m →
       normalizarFechaChilena m = none) ∧
    (∀ texto : String,
       primerPatron1 ((sanitizarTexto texto).data) = none →
       primerPatron2 ((sanitizarTexto texto).data) = none →
       extraerFechaDeTexto texto = none) := by
  refine ⟨fun texto m h => patron3_no_normaliza h,
    fun texto m h => patron4_no_normaliza h, ?_⟩
  intro texto h1 h2
  rw [extraerFechaDeTexto]
  split
  · rfl
  · exact extraerDeLimpio_sin_numericos h1 h2

theorem patrones_textuales_descartados_witness :
    extraerFechaDeTexto "15 de agosto de 2025" = none :=
  patrones_textuales_descartados.2.2 "15 de agosto de 2025" (by decide) (by decide)

/-- Claim C3 counterexample: with `maxAttempts = 1` and a workflow whose
single attempt throws an error with empty message, the failure record's
`estado` is `"Error: Error desconocido"` (the `|| 'Error desconocido'`
fallback of main.js line 150), not `"Error: "` followed by the last
thrown error's message. -/
theorem reintentos_mensaje_vacio_cex :
    ejecutarFlujoConReintentos (fun _ => Except.error "") "2000377223468P" "t" 1 =
      ([⟨"2000377223468P", "", "Error: Error desconocido", "t"⟩], 1) ∧
    "Error: Error desconocido" ≠ "Error: " ++ "" :=
  ⟨rfl, by decide⟩

/-- Claim C3 (amended): for `maxAttempts ∈ [1,10]`, if every attempt of the
workflow throws, `ejecutarFlujoConReintentos` executes the workflow exactly
`maxAttempts` times and returns exactly one failure record whose
`fecha_compromiso` is empty and whose `estado` is `"Error: "` followed by
the last thrown error's message — or by `"Error desconocido"` when that
message is the empty string. -/
theorem reintentos_todo_falla (flujo : Nat → Except String Resultado)
    (sku ts : String) (maxReintentos : Nat) (e : String)
    (hmax1 : 1 ≤ maxReintentos) (hmax10 : maxReintentos ≤ 10)
    (hfail : ∀ i, 1 ≤ i → i ≤ maxReintentos → ∃ m, flujo i = Except.error m)
    (hlast : flujo maxReintentos = Except.error e) :
    ejecutarFlujoConReintentos flujo sku ts maxReintentos =
      ([⟨sku, "", "Error: " ++ (if e = "" then "Error desconocido" else e), ts⟩],
        maxReintentos) := by
  obtain ⟨n, rfl⟩ : ∃ n, maxReintentos = n + 1 := ⟨maxReintentos - 1, by omega⟩
  rw [ejecutarFlujoConReintentos]
  rw [bucle_todo_falla flujo sku ts n 1 none e
    (fun i ha hb => hfail i ha (by omega))
    (by rw [show 1 + n = n + 1 from by omega]; exact hlast)]
  rw [show (1 : Nat) + n = n + 1 from by omega]
  rfl

theorem reintentos_todo_falla_witness :
    ejecutarFlujoConReintentos (fun _ => Except.error "fallo de red")
      "2000377223468P" "t" 3 =
      ([⟨"2000377223468P", "", "Error: fallo de red", "t"⟩], 3) :=
  (reintentos_todo_falla (fun _ => Except.error "fallo de red")
    "2000377223468P" "t" 3 "fallo de red" (by omega) (by omega)
    (fun i h1 h2 => ⟨"fallo de red", rfl⟩) rfl).trans (by decide)

/-- Claim C4: if the workflow fails on attempts `1..k-1` and succeeds on
attempt `k ≤ maxAttempts` with record `r`, then `ejecutarFlujoConReintentos`
executes exactly `k` attempts, stops at the first success, and returns
exactly that success record. -/
theorem reintentos_exito_inmediato (flujo : Nat → Except String Resultado)
    (sku ts : String) (k maxReintentos : Nat) (r : Resultado)
    (hk1 : 1 ≤ k) (hkm : k ≤ maxReintentos)
    (hfail : ∀ i, 1 ≤ i → i < k → ∃ m, flujo i = Except.error m)
    (hok : flujo k = Except.ok r) :
    ejecutarFlujoConReintentos flujo sku ts maxReintentos = ([r], k) := by
  rw [ejecutarFlujoConReintentos]
  exact bucle_exito flujo sku ts k r hok maxReintentos 1 none hk1 (by omega) hfail

theorem reintentos_exito_inmediato_witness :
    ejecutarFlujoConReintentos
      (fun i => if i = 2 then
          Except.ok ⟨"2000377223468P", "15-08-2025", "Producto agregado con éxito", "t"⟩
        else Except.error "fallo")
      "2000377223468P" "t" 3 =
      ([⟨"2000377223468P", "15-08-2025", "Producto agregado con éxito", "t"⟩], 2) :=
  reintentos_exito_inmediato _ "2000377223468P" "t" 2 3 _ (by omega) (by omega)
    (fun i hi1 hi2 => ⟨"fallo", by
      have hi : i = 1 := by omega
      subst hi
      rfl⟩)
    rfl

/-- Claim C5: `buscarYAgregarProducto` always returns a structured outcome
carrying the input `sku` (with `exito` and `mensaje` fields), and never
propagates an inner error: any step that throws is caught and converted to
a record with `exito := false` and `mensaje` `"Error: <message>"`. -/
theorem busqueda_contrato_estructurado :
    (∀ (pasos : PasosBusqueda) (sku ts : String),
       (buscarYAgregarProducto pasos sku ts).sku = sku) ∧
    (∀ (pasos : PasosBusqueda) (sku ts e : String),
       cuerpoBuscarYAgregar pasos sku ts = Except.error e →
       buscarYAgregarProducto pasos sku ts = ⟨sku, false, "Error: " ++ e, ts⟩) := by
  constructor
  · intro pasos sku ts
    cases hc : cuerpoBuscarYAgregar pasos sku ts with
    | ok r =>
      rw [buscarYAgregarProducto, hc]
      exact cuerpo_busqueda_sku hc
    | error e => rw [buscarYAgregarProducto, hc]
  · intro pasos sku ts e hc
    rw [buscarYAgregarProducto, hc]

theorem busqueda_contrato_estructurado_witness :
    buscarYAgregarProducto
      ⟨Except.error "Timeout esperando selector", Except.ok true, Except.ok true⟩
      "2000377223468P" "t" =
      ⟨"2000377223468P", false, "Error: Timeout esperando selector", "t"⟩ :=
  busqueda_contrato_estructurado.2 _ "2000377223468P" "t"
    "Timeout esperando selector" rfl

/-- Claim C6: `verificarLoginExitoso` (the anti-bot variant, which re-runs
block detection after submission) succeeds exactly when no error indicator
is visible, no block is detected, and at least one positive signal is
present — a logged-in indicator element or the URL check; in particular a
block detected after submission forces failure. -/
theorem verificacion_login_senales (e : EstadoPostLogin) :
    verificarLoginExitoso e =
      (!e.hayError && !e.hayBloqueo &&
        (e.indicadorLogueadoVisible || urlIndicaSesion e.url)) ∧
    (e.hayBloqueo = true → verificarLoginExitoso e = false) := by
  obtain ⟨herr, hblk, hind, url⟩ := e
  cases herr <;> cases hblk <;> cases hind <;>
    simp [verificarLoginExitoso]

theorem verificacion_login_senales_witness :
    verificarLoginExitoso ⟨false, true, true, "https://www.ripley.cl/mi-cuenta"⟩ =
      false :=
  (verificacion_login_senales
    ⟨false, true, true, "https://www.ripley.cl/mi-cuenta"⟩).2 rfl

/-- Claim C7: element resolution returns the candidate list's first
selector whose visibility probe reports `true` — never a later one — and
returns `none` (NotFound) rather than raising when every candidate fails;
instantiated on the ranked selector lists of `buscarCampoEmail` and
`buscarIconoCarrito`. -/
theorem resolucion_primer_visible (visible : String → Except String Bool) :
    (∀ (sels : List String) (i : Nat) (hi : i < sels.length),
       (∀ j, ∀ hj : j < sels.length, j < i →
          visible (sels.get ⟨j, hj⟩) ≠ Except.ok true) →
       visible (sels.get ⟨i, hi⟩) = Except.ok true →
       resolverPrimerVisible visible sels = some (sels.get ⟨i, hi⟩)) ∧
    (∀ sels : List String, (∀ s ∈ sels, visible s ≠ Except.ok true) →
       resolverPrimerVisible visible sels = none) ∧
    ((∀ s ∈ selectoresEmail, visible s ≠ Except.ok true) →
       buscarCampoEmail visible = none) ∧
    ((∀ s ∈ selectoresIconoCarrito, visible s ≠ Except.ok true) →
       buscarIconoCarrito visible = none) :=
  ⟨fun sels i hi hprev hvis => resolver_precedencia sels i hi hprev hvis,
   fun sels hall => resolver_agotado sels hall,
   fun hall => resolver_agotado _ hall,
   fun hall => resolver_agotado _ hall⟩

theorem resolucion_primer_visible_witness :
    resolverPrimerVisible (fun _ => Except.ok true)
      [".cart-icon", ".shopping-cart"] = some ".cart-icon" ∧
    buscarCampoEmail (fun s => Except.error ("no visible: " ++ s)) = none :=
  ⟨(resolucion_primer_visible (fun _ => Except.ok true)).1
      [".cart-icon", ".shopping-cart"] 0 (by decide)
      (fun j hj hji => absurd hji (by omega)) rfl,
   (resolucion_primer_visible (fun s => Except.error ("no visible: " ++ s))).2.2.1
      (fun s hs hcontra => Except.noConfusion hcontra)⟩

/-- Claim C8: date normalization is idempotent: for any input accepted by
`validarFechaChilena` (valid dd-mm-yyyy), normalizing twice equals
normalizing once (a `null` inner result propagates as `null`). -/
theorem normalizacion_idempotente (x : String)
    (_hval : validarFechaChilena x = true) :
    (normalizarFechaChilena x).bind normalizarFechaChilena =
      normalizarFechaChilena x := by
  cases hx : normalizarFechaChilena x with
  | none => rfl
  | some y => exact normalizar_proyector hx

theorem normalizacion_idempotente_witness :
    validarFechaChilena "5-8-2025" = true ∧
    (normalizarFechaChilena "5-8-2025").bind normalizarFechaChilena =
      normalizarFechaChilena "5-8-2025" :=
  ⟨by decide, normalizacion_idempotente "5-8-2025" (by decide)⟩

/-- Claim C9: SKU validation boundary: `validarSku` rejects every string of
length 9, accepts every string of exactly 10 alphanumeric characters, and
rejects every string containing a space or any non-alphanumeric symbol. -/
theorem sku_frontera :
    (∀ s : String, s.length = 9 → validarSku s = false) ∧
    (∀ s : String, s.length = 10 → s.data.all esAlfanumerico = true →
       validarSku s = true) ∧
    (∀ (s : String) (c : Char), c ∈ s.data → esAlfanumerico c = false →
       validarSku s = false) ∧
    (∀ s : String, ' ' ∈ s.data → validarSku s = false) := by
  refine ⟨?_, ?_, fun s c hc hcf => sku_con_no_alfanumerico hc hcf,
    fun s hsp => sku_con_no_alfanumerico hsp (by decide)⟩
  · intro s h
    rw [validarSku]
    split
    · rfl
    · simp [h]
  · intro s h hall
    have hne : s ≠ "" := by
      intro he
      subst he
      simp at h
    rw [validarSku, if_neg hne]
    simp [h, hall]

theorem sku_frontera_witness :
    validarSku "A1B2C3D4E" = false ∧
    validarSku "A1B2C3D4E5" = true ∧
    validarSku "A1B2C3D4 5" = false :=
  ⟨sku_frontera.1 "A1B2C3D4E" (by decide),
   sku_frontera.2.1 "A1B2C3D4E5" (by decide) (by decide),
   sku_frontera.2.2.2 "A1B2C3D4 5" (by decide)⟩

/-- Claim C10: `validarEstructuraResultado` skips the date-format check for
an empty `fecha_compromiso`, so any record with empty date, valid SKU and
non-empty `estado`/`timestamp` validates; in particular every record of the
output of `ejecutarFlujoConReintentos` when all attempts fail — the
synthetic failure record — passes structure validation. -/
theorem estructura_acepta_fecha_vacia :
    (∀ r : Resultado, r.fecha_compromiso = "" → validarSku r.sku = true →
       r.estado ≠ "" → r.timestamp ≠ "" → validarEstructuraResultado r = true) ∧
    (∀ (flujo : Nat → Except String Resultado) (sku ts : String)
       (maxReintentos : Nat) (e : String),
       1 ≤ maxReintentos →
       (∀ i, 1 ≤ i → i ≤ maxReintentos → ∃ m, flujo i = Except.error m) →
       flujo maxReintentos = Except.error e →
       validarSku sku = true → ts ≠ "" →
       ∀ r ∈ (ejecutarFlujoConReintentos flujo sku ts maxReintentos).1,
         validarEstructuraResultado r = true) := by
  have hbase : ∀ r : Resultado, r.fecha_compromiso = "" → validarSku r.sku = true →
      r.estado ≠ "" → r.timestamp ≠ "" → validarEstructuraResultado r = true := by
    intro r h1 h2 h3 h4
    simp [validarEstructuraResultado, h1, h2, h3, h4]
  refine ⟨hbase, ?_⟩
  intro flujo sku ts maxR e hmax hfail hlast hsku hts r hr
  obtain ⟨n, rfl⟩ : ∃ n, maxR = n + 1 := ⟨maxR - 1, by omega⟩
  rw [ejecutarFlujoConReintentos] at hr
  rw [bucle_todo_falla flujo sku ts n 1 none e
    (fun i ha hb => hfail i ha (by omega))
    (by rw [show 1 + n = n + 1 from by omega]; exact hlast)] at hr
  simp only [List.mem_singleton] at hr
  subst hr
  exact hbase _ rfl hsku (estado_error_no_vacio _) hts

theorem estructura_acepta_fecha_vacia_witness :
    validarEstructuraResultado
      ⟨"2000377223468P", "", "Error: fallo de red", "t"⟩ = true :=
  estructura_acepta_fecha_vacia.1 ⟨"2000377223468P", "", "Error: fallo de red", "t"⟩
    rfl (by decide) (by decide) (by decide)
